import Mathlib

/-
Verification development for the jersey-design studio core
(canvas design-state and export engine).

Shallow embedding notes:
* JavaScript numbers are modelled as exact rationals extended with the
  IEEE special values +Infinity, -Infinity and NaN (type JVal); float
  rounding is out of scope.
* Fabric.js scene objects are modelled by the fields the code reads:
  the string tag stored in the name property, visibility, whether the
  object is an image, whether it carries a truthy src property, and the
  axis-aligned bounding rectangle returned by getBoundingRect().
* Durable storage (localStorage) holds a JSON document; JSON.stringify
  followed by JSON.parse is the identity on a JSON tree, so storage is
  modelled as an optional Json value.
-/

set_option linter.unusedVariables false
set_option linter.unnecessarySeqFocus false

namespace Jersey

/-- A JavaScript number: a finite rational or one of the IEEE special
values Infinity, -Infinity, NaN. -/
inductive JVal where
  | fin (q : ℚ)
  | posInf
  | negInf
  | nan
deriving DecidableEq, Repr

/-- Number.isFinite / the global isFinite on a JS number. -/
def JVal.isFinite : JVal → Bool
  | .fin _ => true
  | _ => false

/-- The rational payload of a finite JS number (0 for the special values;
only used after an isFinite test). -/
def JVal.toQ : JVal → ℚ
  | .fin q => q
  | _ => 0

/-- Math.min on JS numbers: NaN propagates, -Infinity is absorbing,
+Infinity is neutral. -/
def jmin : JVal → JVal → JVal
  | .nan, _ => .nan
  | _, .nan => .nan
  | .negInf, _ => .negInf
  | _, .negInf => .negInf
  | .posInf, b => b
  | a, .posInf => a
  | .fin a, .fin b => .fin (min a b)

/-- Math.max on JS numbers: NaN propagates, +Infinity is absorbing,
-Infinity is neutral. -/
def jmax : JVal → JVal → JVal
  | .nan, _ => .nan
  | _, .nan => .nan
  | .posInf, _ => .posInf
  | _, .posInf => .posInf
  | .negInf, b => b
  | a, .negInf => a
  | .fin a, .fin b => .fin (max a b)

/-- IEEE addition on JS numbers. -/
def jadd : JVal → JVal → JVal
  | .nan, _ => .nan
  | _, .nan => .nan
  | .posInf, .negInf => .nan
  | .negInf, .posInf => .nan
  | .posInf, _ => .posInf
  | _, .posInf => .posInf
  | .negInf, _ => .negInf
  | _, .negInf => .negInf
  | .fin a, .fin b => .fin (a + b)

/-- IEEE subtraction on JS numbers. -/
def jsub : JVal → JVal → JVal
  | .nan, _ => .nan
  | _, .nan => .nan
  | .posInf, .posInf => .nan
  | .negInf, .negInf => .nan
  | .posInf, _ => .posInf
  | _, .posInf => .negInf
  | .negInf, _ => .negInf
  | _, .negInf => .posInf
  | .fin a, .fin b => .fin (a - b)

/-- The comparison a less-or-equal b on JS numbers, false whenever NaN is
involved (as in JavaScript). -/
def jle : JVal → JVal → Bool
  | .nan, _ => false
  | _, .nan => false
  | .negInf, _ => true
  | _, .negInf => false
  | _, .posInf => true
  | .posInf, _ => false
  | .fin a, .fin b => decide (a ≤ b)

/-- The rectangle returned by object.getBoundingRect(). -/
structure JRect where
  left : JVal
  top : JVal
  width : JVal
  height : JVal
deriving DecidableEq, Repr

/-- True when all four fields and both post-transform extents of the
rectangle are finite rationals. -/
def JRect.allFinite (r : JRect) : Bool :=
  r.left.isFinite && r.top.isFinite && r.width.isFinite && r.height.isFinite

/-- A fabric scene object as read by the bounds and export code: the
name tag (none when the property is absent), visibility, whether the
object is a FabricImage, whether its src property is truthy, and its
bounding rectangle. -/
structure SceneObj where
  name : Option String
  visible : Bool
  isImage : Bool
  hasSrc : Bool
  rect : JRect
deriving DecidableEq, Repr

/-- JavaScript truthiness of the name property: absent or the empty
string is falsy. -/
def nameFalsy : Option String → Bool
  | none => true
  | some s => s = ""

/-- The filter predicate of getVisibleContentBounds: visible objects
tagged jerseyFront, jerseyBack, leftSleeve, rightSleeve, collar,
playerName, jerseyNumber, customText, customLogo, or an untagged
FabricImage. -/
def isGvcbDesign (o : SceneObj) : Bool :=
  o.visible &&
    (o.name == some "jerseyFront" ||
     o.name == some "jerseyBack" ||
     o.name == some "leftSleeve" ||
     o.name == some "rightSleeve" ||
     o.name == some "collar" ||
     o.name == some "playerName" ||
     o.name == some "jerseyNumber" ||
     o.name == some "customText" ||
     o.name == some "customLogo" ||
     (nameFalsy o.name && o.isImage))

/-- The filter predicate of exportCurrentDesign (and of the bulk-export
loop): visible objects tagged jerseyFront, jerseyBack, playerName,
jerseyNumber, customText, customLogo, or untagged with a truthy src.
Unlike isGvcbDesign it admits no leftSleeve, rightSleeve or collar tag. -/
def isExportDesign (o : SceneObj) : Bool :=
  o.visible &&
    (o.name == some "jerseyFront" ||
     o.name == some "jerseyBack" ||
     o.name == some "playerName" ||
     o.name == some "jerseyNumber" ||
     o.name == some "customText" ||
     o.name == some "customLogo" ||
     (nameFalsy o.name && o.hasSrc))

/-- The four running extents of the min/max reduction. -/
structure BBoxAcc where
  minX : JVal
  minY : JVal
  maxX : JVal
  maxY : JVal
deriving DecidableEq, Repr

/-- One step of the forEach reduction over design objects. -/
def bboxStep (acc : BBoxAcc) (o : SceneObj) : BBoxAcc :=
  { minX := jmin acc.minX o.rect.left
    minY := jmin acc.minY o.rect.top
    maxX := jmax acc.maxX (jadd o.rect.left o.rect.width)
    maxY := jmax acc.maxY (jadd o.rect.top o.rect.height) }

/-- The full reduction, started from the initial values
POSITIVE_INFINITY / NEGATIVE_INFINITY used by the code. -/
def bboxFold (objs : List SceneObj) : BBoxAcc :=
  objs.foldl bboxStep ⟨.posInf, .posInf, .negInf, .negInf⟩

/-- The bounds record returned to callers (all four fields finite). -/
structure CanvasBounds where
  left : ℚ
  top : ℚ
  width : ℚ
  height : ℚ
deriving DecidableEq, Repr

/-- getVisibleContentBounds: filter to visible design elements, reduce
min/max, return null when the filtered set is empty or any computed
extent is non-finite, otherwise the exact bounds with no padding. -/
def getVisibleContentBounds (objs : List SceneObj) : Option CanvasBounds :=
  let designObjects := objs.filter isGvcbDesign
  if designObjects.isEmpty then none
  else
    let acc := bboxFold designObjects
    if acc.minX.isFinite && acc.minY.isFinite &&
       acc.maxX.isFinite && acc.maxY.isFinite then
      some ⟨acc.minX.toQ, acc.minY.toQ,
            acc.maxX.toQ - acc.minX.toQ, acc.maxY.toQ - acc.minY.toQ⟩
    else none

/-! ## Players and file names -/

/-- The fields of a PlayerData record used by the export code. -/
structure Player where
  playerName : String
  jerseyNumber : String
  size : String
deriving DecidableEq, Repr

/-- playerName.replace with the pattern matching every character that is
not a latin letter or digit (case-insensitive regex), replacement an
underscore. -/
def sanitizeName (s : String) : String :=
  String.mk (s.toList.map (fun c => if c.isAlphanum then c else '_'))

/-- generateFileName: sanitized player name, jersey number and size,
joined by underscores, followed by the format extension. -/
def generateFileName (p : Player) (format : String) : String :=
  sanitizeName p.playerName ++ "_" ++ p.jerseyNumber ++ "_" ++ p.size ++ "." ++ format

/-- The per-view download name used by exportAllViews and
exportCurrentView: raw player name, jersey number and the view key. -/
def exportAllViewsFileName (p : Player) (view : String) : String :=
  p.playerName ++ "_" ++ p.jerseyNumber ++ "_" ++ view ++ ".png"

/-- The download name used by exportIndividualSleeve: just the sleeve
type. -/
def sleeveExportFileName (sleeveType : String) : String :=
  sleeveType ++ ".png"

/-- The download name used by exportCollar. -/
def collarExportFileName : String := "collar.png"

/-- The bulk-export archive name, built from the current date. -/
def bulkArchiveName (date : String) : String :=
  "jersey_designs_" ++ date ++ ".zip"

/-! ## Size scale factor -/

/-- One decimal digit, for the parseInt model. -/
def charDigit (c : Char) : Bool := decide ('0' ≤ c) && decide (c ≤ '9')

/-- Leading run of decimal digits as a natural number; none when no digit
is present (the NaN case of parseInt). -/
def parseDigits (cs : List Char) : Option ℕ :=
  let ds := cs.takeWhile charDigit
  if ds.isEmpty then none
  else some (ds.foldl (fun n c => 10 * n + (c.toNat - 48)) 0)

/-- JavaScript parseInt in base 10: skip leading whitespace, accept an
optional sign, read the leading digit run, NaN when there is none
(hexadecimal 0x prefixes are not modelled). -/
def parseIntJS (s : String) : Option ℤ :=
  let cs := s.toList.dropWhile
    (fun c => c == ' ' || c == '\t' || c == '\n' || c == '\r')
  match cs with
  | '-' :: rest => (parseDigits rest).map (fun n => -(n : ℤ))
  | '+' :: rest => (parseDigits rest).map (fun n => (n : ℤ))
  | _ => (parseDigits cs).map (fun n => (n : ℤ))

/-- getSizeScaleFactor: 1 for a missing or falsy size, 1 for a
non-numeric size, otherwise the unclamped linear map sending size 22 to
0.8 and size 46 to 1.2. -/
def getSizeScaleFactor (size : Option String) : ℚ :=
  match size with
  | none => 1
  | some s =>
    if s = "" then 1
    else
      match parseIntJS s with
      | none => 1
      | some n => ((n : ℚ) - 22) / (46 - 22) * (6/5 - 4/5) + 4/5

/-! ## Export operations -/

/-- The user-facing failure conditions of the export operations. -/
inductive ExportErr where
  | noDesign
  | notSignedIn
  | insufficientPoints
  | freeTrialLimit
  | noContent
  | deductFailed
  | componentMissing
deriving DecidableEq, Repr

/-- Outcome of one export operation: the files handed to the browser for
download, how many deductPoints calls were issued, the crop rectangle
passed to toDataURL when a render happened, and the failure condition
shown to the user, if any. -/
structure ExportResult where
  files : List String
  deductCalls : ℕ
  crop : Option (JVal × JVal × JVal × JVal)
  err : Option ExportErr
deriving DecidableEq, Repr

/-- exportCurrentDesign: guard on canvas/player, sign-in, a 1-point
balance and the free-trial limit; filter the scene with isExportDesign;
fail with no content when the filtered set is empty; otherwise crop to
the min/max bounds (with no finiteness check), download the file named
by generateFileName, then call deductPoints once. -/
def exportCurrentDesign (hasCanvas hasPlayer signedIn : Bool)
    (currentPoints : ℤ) (isFreeUser : Bool) (freeExportCount : ℕ)
    (objs : List SceneObj) (player : Player) (deductOk : Bool) :
    ExportResult :=
  if !hasCanvas || !hasPlayer then ⟨[], 0, none, some .noDesign⟩
  else if !signedIn then ⟨[], 0, none, some .notSignedIn⟩
  else if currentPoints < 1 then ⟨[], 0, none, some .insufficientPoints⟩
  else if isFreeUser && decide (5 ≤ freeExportCount) then
    ⟨[], 0, none, some .freeTrialLimit⟩
  else
    let designObjects := objs.filter isExportDesign
    if designObjects.isEmpty then ⟨[], 0, none, some .noContent⟩
    else
      let acc := bboxFold designObjects
      let crop := (acc.minX, acc.minY,
                   jsub acc.maxX acc.minX, jsub acc.maxY acc.minY)
      if deductOk then
        ⟨[generateFileName player "png"], 1, some crop, none⟩
      else
        ⟨[generateFileName player "png"], 1, some crop, some .deductFailed⟩

/-- exportIndividualSleeve: guard on canvas/player and sign-in only
(there is no points-balance check in this function); filter to visible
objects carrying exactly the requested sleeve tag; throw (caught as a
user-facing error) when none is found; otherwise render, download the
file named by the sleeve type, and call deductPoints once, ignoring its
result. The currentPoints argument is in scope but never read, mirroring
the component. -/
def exportIndividualSleeve (hasCanvas hasPlayer signedIn : Bool)
    (currentPoints : ℤ) (objs : List SceneObj) (sleeveType : String) :
    ExportResult :=
  if !hasCanvas || !hasPlayer then ⟨[], 0, none, some .noDesign⟩
  else if !signedIn then ⟨[], 0, none, some .notSignedIn⟩
  else
    let sleeveObjects :=
      objs.filter (fun o => o.name == some sleeveType && o.visible)
    if sleeveObjects.isEmpty then ⟨[], 0, none, some .componentMissing⟩
    else
      let acc := bboxFold sleeveObjects
      ⟨[sleeveExportFileName sleeveType], 1,
       some (acc.minX, acc.minY,
             jsub acc.maxX acc.minX, jsub acc.maxY acc.minY), none⟩

/-- exportCollar: silent return unless canvas, player and user are all
present (no points-balance check); filter to visible collar-tagged
objects; error when none; otherwise render, download collar.png and call
deductPoints once, ignoring its result. -/
def exportCollar (hasCanvas hasPlayer signedIn : Bool)
    (currentPoints : ℤ) (objs : List SceneObj) : ExportResult :=
  if !hasCanvas || !hasPlayer || !signedIn then ⟨[], 0, none, none⟩
  else
    let collarObjects :=
      objs.filter (fun o => o.name == some "collar" && o.visible)
    if collarObjects.isEmpty then ⟨[], 0, none, some .componentMissing⟩
    else
      let acc := bboxFold collarObjects
      ⟨[collarExportFileName], 1,
       some (acc.minX, acc.minY,
             jsub acc.maxX acc.minX, jsub acc.maxY acc.minY), none⟩

/-! ## Template store -/

/-- The five jersey views. -/
inductive ViewKey where
  | front
  | back
  | leftSleeve
  | rightSleeve
  | collar
deriving DecidableEq, Repr

/-- The persisted shape of a text object (the TextProps record built by
pickTextProps): content, center-origin position, font, colors, stroke,
angle, alignment and optional bounding width/height. The constant
originX/originY fields, always the string center, are left implicit. -/
structure TextStyleT where
  text : String
  left : ℚ
  top : ℚ
  fontSize : ℚ
  fontFamily : String
  fill : String
  stroke : String
  strokeWidth : ℚ
  angle : ℚ
  textAlign : String
  width : Option ℚ
  height : Option ℚ
deriving DecidableEq, Repr

/-- The persisted shape of a custom logo (LogoProps): source reference,
center-origin position, scale and angle. -/
structure LogoPlacementT where
  src : String
  left : ℚ
  top : ℚ
  scaleX : ℚ
  scaleY : ℚ
  angle : ℚ
deriving DecidableEq, Repr

/-- One per-view slot of the global template: optional name and number
styles, optional custom-text list, optional custom-logo list (a missing
field and the field being absent from the JS object are identified). -/
structure TemplateSlotT where
  name : Option TextStyleT
  number : Option TextStyleT
  customTexts : Option (List TextStyleT)
  customLogos : Option (List LogoPlacementT)
deriving DecidableEq, Repr

/-- The slot with every field absent (the empty object). -/
def emptySlot : TemplateSlotT := ⟨none, none, none, none⟩

/-- The whole global template kept in textRef.current: one slot per
view key. -/
structure TemplateMapT where
  front : TemplateSlotT
  back : TemplateSlotT
  leftSleeve : TemplateSlotT
  rightSleeve : TemplateSlotT
  collar : TemplateSlotT
deriving DecidableEq, Repr

/-- Slot lookup by view key. -/
def TemplateMapT.get (m : TemplateMapT) : ViewKey → TemplateSlotT
  | .front => m.front
  | .back => m.back
  | .leftSleeve => m.leftSleeve
  | .rightSleeve => m.rightSleeve
  | .collar => m.collar

/-- The template with every slot empty. -/
def emptyTemplate : TemplateMapT :=
  ⟨emptySlot, emptySlot, emptySlot, emptySlot, emptySlot⟩

/-- A JSON document, the image of JSON.stringify (undefined-valued keys
are dropped, so option fields encode as key absence). -/
inductive Json where
  | num (q : ℚ)
  | str (s : String)
  | arr (items : List Json)
  | obj (fields : List (String × Json))

/-- First-match key lookup in a JSON object. -/
def jlookup : List (String × Json) → String → Option Json
  | [], _ => none
  | (k, v) :: rest, key => if k = key then some v else jlookup rest key

/-- A rational out of a JSON value. -/
def Json.asNum : Json → Option ℚ
  | .num q => some q
  | _ => none

/-- A string out of a JSON value. -/
def Json.asStr : Json → Option String
  | .str s => some s
  | _ => none

/-- An optional rational field: key absent means none. -/
def encOptQ (k : String) : Option ℚ → List (String × Json)
  | none => []
  | some q => [(k, .num q)]

/-- JSON.stringify of a TextProps record. -/
def encodeTextStyle (t : TextStyleT) : Json :=
  .obj ([("text", .str t.text), ("left", .num t.left), ("top", .num t.top),
         ("fontSize", .num t.fontSize), ("fontFamily", .str t.fontFamily),
         ("fill", .str t.fill), ("stroke", .str t.stroke),
         ("strokeWidth", .num t.strokeWidth), ("angle", .num t.angle),
         ("textAlign", .str t.textAlign)]
        ++ encOptQ "width" t.width ++ encOptQ "height" t.height
        ++ [("originX", .str "center"), ("originY", .str "center")])

/-- The typed reading of a stored TextProps JSON object. -/
def decodeTextStyle (j : Json) : Option TextStyleT :=
  match j with
  | .obj fs => do
    let text ← (jlookup fs "text").bind Json.asStr
    let left ← (jlookup fs "left").bind Json.asNum
    let top ← (jlookup fs "top").bind Json.asNum
    let fontSize ← (jlookup fs "fontSize").bind Json.asNum
    let fontFamily ← (jlookup fs "fontFamily").bind Json.asStr
    let fill ← (jlookup fs "fill").bind Json.asStr
    let stroke ← (jlookup fs "stroke").bind Json.asStr
    let strokeWidth ← (jlookup fs "strokeWidth").bind Json.asNum
    let angle ← (jlookup fs "angle").bind Json.asNum
    let textAlign ← (jlookup fs "textAlign").bind Json.asStr
    some ⟨text, left, top, fontSize, fontFamily, fill, stroke, strokeWidth,
          angle, textAlign,
          (jlookup fs "width").bind Json.asNum,
          (jlookup fs "height").bind Json.asNum⟩
  | _ => none

/-- JSON.stringify of a LogoProps record. -/
def encodeLogo (g : LogoPlacementT) : Json :=
  .obj [("src", .str g.src), ("left", .num g.left), ("top", .num g.top),
        ("scaleX", .num g.scaleX), ("scaleY", .num g.scaleY),
        ("angle", .num g.angle),
        ("originX", .str "center"), ("originY", .str "center")]

/-- The typed reading of a stored LogoProps JSON object. -/
def decodeLogo (j : Json) : Option LogoPlacementT :=
  match j with
  | .obj fs => do
    let src ← (jlookup fs "src").bind Json.asStr
    let left ← (jlookup fs "left").bind Json.asNum
    let top ← (jlookup fs "top").bind Json.asNum
    let scaleX ← (jlookup fs "scaleX").bind Json.asNum
    let scaleY ← (jlookup fs "scaleY").bind Json.asNum
    let angle ← (jlookup fs "angle").bind Json.asNum
    some ⟨src, left, top, scaleX, scaleY, angle⟩
  | _ => none

/-- Decode every element of a JSON array, failing if any element fails. -/
def decodeListWith (f : Json → Option α) : List Json → Option (List α)
  | [] => some []
  | j :: rest => do
    let a ← f j
    let as ← decodeListWith f rest
    some (a :: as)

/-- JSON.stringify of one template slot; absent option fields produce no
key. -/
def encodeSlot (s : TemplateSlotT) : Json :=
  .obj ((match s.name with
         | none => []
         | some t => [("name", encodeTextStyle t)])
     ++ (match s.number with
         | none => []
         | some t => [("number", encodeTextStyle t)])
     ++ (match s.customTexts with
         | none => []
         | some l => [("customTexts", .arr (l.map encodeTextStyle))])
     ++ (match s.customLogos with
         | none => []
         | some l => [("customLogos", .arr (l.map encodeLogo))]))

/-- The typed reading of one stored slot. -/
def decodeSlot (j : Json) : Option TemplateSlotT :=
  match j with
  | .obj fs =>
    some ⟨(jlookup fs "name").bind decodeTextStyle,
          (jlookup fs "number").bind decodeTextStyle,
          (jlookup fs "customTexts").bind (fun j =>
            match j with
            | .arr items => decodeListWith decodeTextStyle items
            | _ => none),
          (jlookup fs "customLogos").bind (fun j =>
            match j with
            | .arr items => decodeListWith decodeLogo items
            | _ => none)⟩
  | _ => none

/-- JSON.stringify of the record written by saveGlobalTemplate: the
spread of textRef.current plus the lastModified timestamp. -/
def encodeTemplate (m : TemplateMapT) (lastModified : ℚ) : Json :=
  .obj [("front", encodeSlot m.front), ("back", encodeSlot m.back),
        ("leftSleeve", encodeSlot m.leftSleeve),
        ("rightSleeve", encodeSlot m.rightSleeve),
        ("collar", encodeSlot m.collar),
        ("lastModified", .num lastModified)]

/-- One slot of the loaded template: the per-view read
textRef.current at a view key, the empty object when the key is absent
or unreadable. -/
def decodeTemplateSlot (fs : List (String × Json)) (k : String) :
    TemplateSlotT :=
  ((jlookup fs k).bind decodeSlot).getD emptySlot

/-- saveGlobalTemplate: overwrite the stored record wholesale with the
serialized current template plus a timestamp. -/
def saveGlobalTemplate (m : TemplateMapT) (lastModified : ℚ)
    (storage : Option Json) : Option Json :=
  some (encodeTemplate m lastModified)

/-- loadGlobalTemplate: a missing record keeps the current template; a
parsed object replaces it (read per view key, lastModified ignored); a
parsed array replaces it with undefined slots everywhere; any other
parse result is not an object and keeps the current template. -/
def loadGlobalTemplate (storage : Option Json) (cur : TemplateMapT) :
    TemplateMapT :=
  match storage with
  | none => cur
  | some (.obj fs) =>
    ⟨decodeTemplateSlot fs "front", decodeTemplateSlot fs "back",
     decodeTemplateSlot fs "leftSleeve", decodeTemplateSlot fs "rightSleeve",
     decodeTemplateSlot fs "collar"⟩
  | some (.arr _) => emptyTemplate
  | some _ => cur

/-! ## View loader: back-view text objects -/

/-- The built-in default name props of the back view: horizontally
centered, top 103, font size 38, Anton, black fill, center alignment,
bounding width 960 (stroke, strokeWidth and angle are absent from the
literal and default to the empty stroke and zero). -/
def defaultNameProps (p : Player) (canvasW : ℚ) : TextStyleT :=
  ⟨p.playerName, canvasW / 2, 103, 38, "Anton", "#000000", "", 0, 0,
   "center", some 960, none⟩

/-- The built-in default number props of the back view: horizontally
centered, top 257, font size 115, Anton, black fill, center alignment,
bounding height 720. -/
def defaultNumberProps (p : Player) (canvasW : ℚ) : TextStyleT :=
  ⟨p.jerseyNumber, canvasW / 2, 257, 115, "Anton", "#000000", "", 0, 0,
   "center", none, some 720⟩

/-- What the back-view branch of loadJerseyView builds: the props of the
created name and number objects, and whether the auto-center pass was
scheduled. -/
structure BackViewBuild where
  nameProps : TextStyleT
  numberProps : TextStyleT
  autoCenterScheduled : Bool
deriving DecidableEq, Repr

/-- The back-view text setup of loadJerseyView: the previous props of
name and number are the active template slot values, falling back to the
props picked off a surviving scene object; each created object takes its
previous props when present and the built-in defaults otherwise, and the
auto-center pass is scheduled exactly when at least one of the two
previous props is missing (shouldAutoCenter). -/
def loadBackTextObjects
    (slotName slotNumber existingName existingNumber : Option TextStyleT)
    (p : Player) (canvasW : ℚ) : BackViewBuild :=
  let prevNameProps := slotName.orElse (fun _ => existingName)
  let prevNumberProps := slotNumber.orElse (fun _ => existingNumber)
  { nameProps := prevNameProps.getD (defaultNameProps p canvasW)
    numberProps := prevNumberProps.getD (defaultNumberProps p canvasW)
    autoCenterScheduled := prevNameProps.isNone || prevNumberProps.isNone }

/-! ## Auto-layout (centerFitBackNameNumber) -/

/-- A finite bounding rectangle (the rendered back artwork). -/
structure RectQ where
  left : ℚ
  top : ℚ
  width : ℚ
  height : ℚ
deriving DecidableEq, Repr

/-- The mutable fields of a text object that the auto-layout routine
writes: position and font size (originX, originY and textAlign are also
written but always to the constant center). -/
structure TextPlacement where
  left : ℚ
  top : ℚ
  fontSize : ℤ
deriving DecidableEq, Repr

/-- The name and number objects found on the scene, when present. -/
structure BackLayout where
  name : Option TextPlacement
  number : Option TextPlacement
deriving DecidableEq, Repr

/-- Math.round: round half toward positive infinity. -/
def jsRound (q : ℚ) : ℤ := ⌊q + 1/2⌋

/-- The greedy shrink-to-fit loop with explicit fuel: while the rendered
width at the current font size exceeds the cap and the font size exceeds
12, decrement the font size. -/
def shrinkFontLoop (widthAt : ℤ → ℚ) (maxW : ℚ) : ℕ → ℤ → ℤ
  | 0, f => f
  | fuel + 1, f =>
    if maxW < widthAt f ∧ 12 < f then shrinkFontLoop widthAt maxW fuel (f - 1)
    else f

/-- The shrink loop run with enough fuel to reach its fixpoint (the font
size strictly decreases toward the floor 12). -/
def shrinkFont (widthAt : ℤ → ℚ) (maxW : ℚ) (f : ℤ) : ℤ :=
  shrinkFontLoop widthAt maxW (f - 12).toNat f

/-- centerFitBackNameNumber: no-op when the back artwork is missing;
otherwise recompute, from the artwork bounding rectangle alone, the
centered positions (name top at 26 percent of the height, number top at
52 percent), the font sizes (8 percent of height with floor 16 for the
name, 28 percent with floor 48 for the number), then shrink the name
font in unit steps while its rendered width exceeds 70 percent of the
artwork width and stays above 12. nameWidthAt gives the rendered scaled
width of the name text as a function of its font size; it is a property
of the text content, font family and object scale, none of which this
routine changes. -/
def centerFitBackNameNumber (backRect : Option RectQ)
    (nameWidthAt : ℤ → ℚ) (s : BackLayout) : BackLayout :=
  match backRect with
  | none => s
  | some r =>
    let centerX := r.left + r.width / 2
    let nameTop := r.top + r.height * (13/50)
    let numberTop := r.top + r.height * (13/25)
    let nameFont := max 16 (jsRound (r.height * (2/25)))
    let numberFont := max 48 (jsRound (r.height * (7/25)))
    let maxTextWidth := r.width * (7/10)
    { name := s.name.map (fun _ =>
        ⟨centerX, nameTop, shrinkFont nameWidthAt maxTextWidth nameFont⟩)
      number := s.number.map (fun _ => ⟨centerX, numberTop, numberFont⟩) }

/-! ## Customization tools: adding a logo -/

/-- The scene object created by handleAddLogo. -/
structure LogoObj where
  left : ℚ
  top : ℚ
  scaleX : ℚ
  scaleY : ℚ
  originX : String
  originY : String
  name : Option String
  src : String
deriving DecidableEq, Repr

/-- handleAddLogo: place the loaded image at the canvas center with
center origin; when the natural width is truthy (nonzero) and exceeds
300, scaleToWidth(300) sets both scales to 300 divided by the natural
width; otherwise the natural scale 1 from the loader is kept; tag the
object customLogo and record its source. -/
def handleAddLogo (canvasW canvasH imgW : ℚ) (logoUrl : String) : LogoObj :=
  let scale := if imgW ≠ 0 ∧ 300 < imgW then 300 / imgW else 1
  ⟨canvasW / 2, canvasH / 2, scale, scale, "center", "center",
   some "customLogo", logoUrl⟩

/-! ## View loader: load-token trace model -/

/-- The scene mutations loadJerseyView can perform. -/
inductive SceneMutation where
  | clearScene
  | addArtwork (v : ViewKey)
  | addNameText
  | addNumberText
  | autoCenterChange
  | addCustomText (i : ℕ)
  | addCustomLogo (i : ℕ)
  | addPlayerLabel
  | render
deriving DecidableEq, Repr

/-- The sequence of scene mutations performed by one call of
loadJerseyView, as a function of the schedule of observed load-token
values at its suspension points. The call runs with token myToken; tokA
is the value of loadTokenRef.current observed when the artwork
FabricImage.fromURL resumes, each entry of logos gives, for a stored
custom logo with a truthy src, whether its fromURL resolves and the
token value observed at its resume (the parallel loads are serialized),
and tokTimeout is the token value observed when the zero-delay
auto-center callback fires; that callback runs after the task and its
mutations are listed last. hasUrl says whether the active view has an
artwork source, artworkOk whether its fromURL resolves, and nTexts how
many custom texts the active slot holds. Faithful points: the token is
re-checked before adding artwork, inside the timeout callback, and
before the final render, but not before adding name/number/custom
texts (reached when the artwork fetch rejects), not before adding a
loaded custom logo, and not before adding the player label. -/
def runLoadJerseyView (view : ViewKey) (hasUrl artworkOk hasPlayer : Bool)
    (prevName prevNumber : Option TextStyleT) (nTexts : ℕ)
    (logos : List (Bool × ℕ)) (myToken tokA tokTimeout : ℕ) :
    List SceneMutation :=
  let isFB := view == ViewKey.front || view == ViewKey.back
  let art : List SceneMutation × ℕ × Bool :=
    if isFB then
      if hasUrl then
        if artworkOk then
          if myToken ≠ tokA then ([], tokA, false)
          else ([.addArtwork view], tokA, true)
        else ([], tokA, true)
      else ([], myToken, true)
    else
      if hasUrl then
        if artworkOk then
          if myToken ≠ tokA then ([], tokA, false)
          else ([.addArtwork view], tokA, true)
        else ([], tokA, true)
      else ([.render], myToken, false)
  match art with
  | (artMuts, cur, kont) =>
    if !kont then SceneMutation.clearScene :: artMuts
    else
      let isBack := view == ViewKey.back
      let backMuts :=
        if hasPlayer && isBack then
          [SceneMutation.addNameText, SceneMutation.addNumberText]
        else []
      let timeoutMuts :=
        if hasPlayer && isBack then
          if myToken ≠ tokTimeout then []
          else if prevName.isNone || prevNumber.isNone then
            if hasUrl && artworkOk then
              [SceneMutation.autoCenterChange, SceneMutation.render]
            else []
          else [SceneMutation.render]
        else []
      let textMuts := (List.range nTexts).map SceneMutation.addCustomText
      let isFront := view == ViewKey.front
      let logoMuts :=
        if isFront then
          logos.enum.filterMap (fun p =>
            if p.2.1 then some (SceneMutation.addCustomLogo p.1) else none)
        else []
      let curAfter :=
        if isFront then logos.foldl (fun c lg => lg.2) cur else cur
      let labelMuts :=
        if hasPlayer then [SceneMutation.addPlayerLabel] else []
      let finalMuts :=
        if myToken ≠ curAfter then [] else [SceneMutation.render]
      SceneMutation.clearScene :: artMuts ++ backMuts ++ textMuts
        ++ logoMuts ++ labelMuts ++ finalMuts ++ timeoutMuts

/-! ## Shared concrete inputs -/

/-- A rectangle with four finite extents. -/
def finRect (l t w h : ℚ) : JRect := ⟨.fin l, .fin t, .fin w, .fin h⟩

/-- A visible left-sleeve artwork object. -/
def sampleSleeveObj : SceneObj :=
  ⟨some "leftSleeve", true, true, true, finRect 0 0 10 10⟩

/-- A visible collar artwork object. -/
def sampleCollarObj : SceneObj :=
  ⟨some "collar", true, true, true, finRect 5 5 20 8⟩

/-- A visible back artwork object. -/
def sampleBackObj : SceneObj :=
  ⟨some "jerseyBack", true, true, false, finRect 10 20 100 200⟩

/-- A visible player-name text object. -/
def sampleNameObj : SceneObj :=
  ⟨some "playerName", true, false, false, finRect 30 5 40 50⟩

/-- A roster entry. -/
def samplePlayer : Player := ⟨"John Doe", "9", "42"⟩

/-- A saved template text style. -/
def sampleTextStyle : TextStyleT :=
  ⟨"JOHN", 480, 103, 38, "Anton", "#000000", "", 0, 0, "center",
   some 960, none⟩

/-! ## Lemmas about the min/max reduction -/

theorem jmin_nan_right (x : JVal) : jmin x .nan = .nan := by
  cases x <;> rfl

theorem jmax_nan_right (x : JVal) : jmax x .nan = .nan := by
  cases x <;> rfl

theorem jmin_eq_or (a x : JVal) : jmin a x = a ∨ jmin a x = x := by
  cases a <;> cases x <;> simp [jmin] <;> exact le_total _ _

theorem jmax_eq_or (a x : JVal) : jmax a x = a ∨ jmax a x = x := by
  cases a <;> cases x <;> simp [jmax] <;> exact le_total _ _

theorem foldl_jmin_acc (l : List JVal) : ∀ a : JVal,
    l.foldl jmin a = a ∨ l.foldl jmin a ∈ l := by
  induction l with
  | nil => intro a; left; rfl
  | cons x l ih =>
    intro a
    rw [List.foldl_cons]
    rcases ih (jmin a x) with h | h
    · rcases jmin_eq_or a x with h2 | h2
      · left; rw [h, h2]
      · right; rw [h, h2]; exact List.mem_cons_self _ _
    · right; exact List.mem_cons_of_mem _ h

theorem foldl_jmax_acc (l : List JVal) : ∀ a : JVal,
    l.foldl jmax a = a ∨ l.foldl jmax a ∈ l := by
  induction l with
  | nil => intro a; left; rfl
  | cons x l ih =>
    intro a
    rw [List.foldl_cons]
    rcases ih (jmax a x) with h | h
    · rcases jmax_eq_or a x with h2 | h2
      · left; rw [h, h2]
      · right; rw [h, h2]; exact List.mem_cons_self _ _
    · right; exact List.mem_cons_of_mem _ h

theorem jle_of_jle_jmin (r a x : JVal) (hr : r.isFinite = true)
    (h : jle r (jmin a x) = true) : jle r a = true ∧ jle r x = true := by
  cases r <;> cases a <;> cases x <;>
    simp_all [jmin, jle, JVal.isFinite, le_min_iff]

theorem jle_of_jmax_jle (r a x : JVal) (hr : r.isFinite = true)
    (h : jle (jmax a x) r = true) : jle a r = true ∧ jle x r = true := by
  cases r <;> cases a <;> cases x <;>
    simp_all [jmax, jle, JVal.isFinite, max_le_iff]

theorem foldl_jmin_le (l : List JVal) : ∀ a : JVal,
    (l.foldl jmin a).isFinite = true →
    jle (l.foldl jmin a) a = true ∧
      ∀ x ∈ l, jle (l.foldl jmin a) x = true := by
  induction l with
  | nil =>
    intro a h
    refine ⟨?_, by simp⟩
    cases a <;> simp_all [jle, JVal.isFinite]
  | cons x l ih =>
    intro a h
    rw [List.foldl_cons] at h ⊢
    obtain ⟨h1, h2⟩ := ih (jmin a x) h
    obtain ⟨ha, hx⟩ := jle_of_jle_jmin _ _ _ h h1
    refine ⟨ha, ?_⟩
    intro y hy
    rcases List.mem_cons.mp hy with rfl | hy'
    · exact hx
    · exact h2 y hy'

theorem foldl_jmax_ge (l : List JVal) : ∀ a : JVal,
    (l.foldl jmax a).isFinite = true →
    jle a (l.foldl jmax a) = true ∧
      ∀ x ∈ l, jle x (l.foldl jmax a) = true := by
  induction l with
  | nil =>
    intro a h
    refine ⟨?_, by simp⟩
    cases a <;> simp_all [jle, JVal.isFinite]
  | cons x l ih =>
    intro a h
    rw [List.foldl_cons] at h ⊢
    obtain ⟨h1, h2⟩ := ih (jmax a x) h
    obtain ⟨ha, hx⟩ := jle_of_jmax_jle _ _ _ h h1
    refine ⟨ha, ?_⟩
    intro y hy
    rcases List.mem_cons.mp hy with rfl | hy'
    · exact hx
    · exact h2 y hy'

theorem foldl_jmin_fin (l : List JVal) : ∀ a : JVal, a.isFinite = true →
    (∀ x ∈ l, x.isFinite = true) → (l.foldl jmin a).isFinite = true := by
  induction l with
  | nil => intro a h _; exact h
  | cons x l ih =>
    intro a ha hl
    rw [List.foldl_cons]
    have hx := hl x (List.mem_cons_self _ _)
    refine ih _ ?_ (fun y hy => hl y (List.mem_cons_of_mem _ hy))
    cases a <;> cases x <;> simp_all [jmin, JVal.isFinite]

theorem foldl_jmax_fin (l : List JVal) : ∀ a : JVal, a.isFinite = true →
    (∀ x ∈ l, x.isFinite = true) → (l.foldl jmax a).isFinite = true := by
  induction l with
  | nil => intro a h _; exact h
  | cons x l ih =>
    intro a ha hl
    rw [List.foldl_cons]
    have hx := hl x (List.mem_cons_self _ _)
    refine ih _ ?_ (fun y hy => hl y (List.mem_cons_of_mem _ hy))
    cases a <;> cases x <;> simp_all [jmax, JVal.isFinite]

theorem foldl_jmin_posInf_fin (l : List JVal) (hne : l ≠ [])
    (hl : ∀ x ∈ l, x.isFinite = true) :
    (l.foldl jmin .posInf).isFinite = true := by
  cases l with
  | nil => exact absurd rfl hne
  | cons x l =>
    rw [List.foldl_cons]
    have hx := hl x (List.mem_cons_self _ _)
    refine foldl_jmin_fin l _ ?_
      (fun y hy => hl y (List.mem_cons_of_mem _ hy))
    cases x <;> simp_all [jmin, JVal.isFinite]

theorem foldl_jmax_negInf_fin (l : List JVal) (hne : l ≠ [])
    (hl : ∀ x ∈ l, x.isFinite = true) :
    (l.foldl jmax .negInf).isFinite = true := by
  cases l with
  | nil => exact absurd rfl hne
  | cons x l =>
    rw [List.foldl_cons]
    have hx := hl x (List.mem_cons_self _ _)
    refine foldl_jmax_fin l _ ?_
      (fun y hy => hl y (List.mem_cons_of_mem _ hy))
    cases x <;> simp_all [jmax, JVal.isFinite]

theorem JVal.eq_fin_toQ (v : JVal) (h : v.isFinite = true) :
    v = .fin v.toQ := by
  cases v <;> simp_all [JVal.isFinite, JVal.toQ]

theorem bboxFold_components (l : List SceneObj) : ∀ acc : BBoxAcc,
    (l.foldl bboxStep acc).minX =
      (l.map (fun o => o.rect.left)).foldl jmin acc.minX ∧
    (l.foldl bboxStep acc).minY =
      (l.map (fun o => o.rect.top)).foldl jmin acc.minY ∧
    (l.foldl bboxStep acc).maxX =
      (l.map (fun o => jadd o.rect.left o.rect.width)).foldl jmax acc.maxX ∧
    (l.foldl bboxStep acc).maxY =
      (l.map (fun o => jadd o.rect.top o.rect.height)).foldl jmax acc.maxY := by
  induction l with
  | nil => intro acc; exact ⟨rfl, rfl, rfl, rfl⟩
  | cons o l ih =>
    intro acc
    simpa [List.foldl_cons, bboxStep] using ih (bboxStep acc o)

/-- C3: getVisibleContentBounds returns null exactly when the filtered
set of visible design-tagged objects is empty or some computed extent is
non-finite; otherwise it returns the exact zero-padding bounding box:
its left and top attain the minima, and its right (left plus width) and
bottom (top plus height) attain the maxima, of every included object
bounding rectangle. -/
theorem c3_bounds_resolver_exact (objs : List SceneObj) :
    (getVisibleContentBounds objs = none ↔
      objs.filter isGvcbDesign = [] ∨
      ¬((bboxFold (objs.filter isGvcbDesign)).minX.isFinite = true ∧
        (bboxFold (objs.filter isGvcbDesign)).minY.isFinite = true ∧
        (bboxFold (objs.filter isGvcbDesign)).maxX.isFinite = true ∧
        (bboxFold (objs.filter isGvcbDesign)).maxY.isFinite = true)) ∧
    (∀ b : CanvasBounds, getVisibleContentBounds objs = some b →
      (JVal.fin b.left ∈
          (objs.filter isGvcbDesign).map (fun o => o.rect.left) ∧
        ∀ o ∈ objs.filter isGvcbDesign,
          jle (JVal.fin b.left) o.rect.left = true) ∧
      (JVal.fin b.top ∈
          (objs.filter isGvcbDesign).map (fun o => o.rect.top) ∧
        ∀ o ∈ objs.filter isGvcbDesign,
          jle (JVal.fin b.top) o.rect.top = true) ∧
      (JVal.fin (b.left + b.width) ∈
          (objs.filter isGvcbDesign).map
            (fun o => jadd o.rect.left o.rect.width) ∧
        ∀ o ∈ objs.filter isGvcbDesign,
          jle (jadd o.rect.left o.rect.width)
            (JVal.fin (b.left + b.width)) = true) ∧
      (JVal.fin (b.top + b.height) ∈
          (objs.filter isGvcbDesign).map
            (fun o => jadd o.rect.top o.rect.height) ∧
        ∀ o ∈ objs.filter isGvcbDesign,
          jle (jadd o.rect.top o.rect.height)
            (JVal.fin (b.top + b.height)) = true)) := by
  have key : getVisibleContentBounds objs =
      (if (objs.filter isGvcbDesign).isEmpty then none
       else if ((bboxFold (objs.filter isGvcbDesign)).minX.isFinite &&
                (bboxFold (objs.filter isGvcbDesign)).minY.isFinite &&
                (bboxFold (objs.filter isGvcbDesign)).maxX.isFinite &&
                (bboxFold (objs.filter isGvcbDesign)).maxY.isFinite) then
         some ⟨(bboxFold (objs.filter isGvcbDesign)).minX.toQ,
               (bboxFold (objs.filter isGvcbDesign)).minY.toQ,
               (bboxFold (objs.filter isGvcbDesign)).maxX.toQ -
                 (bboxFold (objs.filter isGvcbDesign)).minX.toQ,
               (bboxFold (objs.filter isGvcbDesign)).maxY.toQ -
                 (bboxFold (objs.filter isGvcbDesign)).minY.toQ⟩
       else none) := rfl
  constructor
  · rw [key]
    by_cases h1 : (objs.filter isGvcbDesign).isEmpty
    · simp [h1, List.isEmpty_iff.mp h1]
    · rw [if_neg h1]
      have h1' : ¬ objs.filter isGvcbDesign = [] := by
        intro h; exact h1 (by simp [h])
      by_cases h2 : ((bboxFold (objs.filter isGvcbDesign)).minX.isFinite &&
                (bboxFold (objs.filter isGvcbDesign)).minY.isFinite &&
                (bboxFold (objs.filter isGvcbDesign)).maxX.isFinite &&
                (bboxFold (objs.filter isGvcbDesign)).maxY.isFinite) = true
      · rw [if_pos h2]
        simp only [Bool.and_eq_true] at h2
        simp [h1', h2.1.1.1, h2.1.1.2, h2.1.2, h2.2]
      · rw [if_neg h2]
        simp only [Bool.and_eq_true] at h2
        have hno : ¬((bboxFold (objs.filter isGvcbDesign)).minX.isFinite = true ∧
              (bboxFold (objs.filter isGvcbDesign)).minY.isFinite = true ∧
              (bboxFold (objs.filter isGvcbDesign)).maxX.isFinite = true ∧
              (bboxFold (objs.filter isGvcbDesign)).maxY.isFinite = true) := by
          tauto
        simp [hno]
  · intro b hb
    rw [key] at hb
    by_cases h1 : (objs.filter isGvcbDesign).isEmpty
    · rw [if_pos h1] at hb; cases hb
    · rw [if_neg h1] at hb
      by_cases h2 : ((bboxFold (objs.filter isGvcbDesign)).minX.isFinite &&
                (bboxFold (objs.filter isGvcbDesign)).minY.isFinite &&
                (bboxFold (objs.filter isGvcbDesign)).maxX.isFinite &&
                (bboxFold (objs.filter isGvcbDesign)).maxY.isFinite) = true
      case neg => rw [if_neg h2] at hb; cases hb
      rw [if_pos h2] at hb
      simp only [Bool.and_eq_true] at h2
      obtain ⟨⟨⟨hfx, hfy⟩, hgx⟩, hgy⟩ := h2
      injection hb with hb
      subst hb
      have comp := bboxFold_components (objs.filter isGvcbDesign)
        ⟨.posInf, .posInf, .negInf, .negInf⟩
      have cx : (bboxFold (objs.filter isGvcbDesign)).minX =
          ((objs.filter isGvcbDesign).map (fun o => o.rect.left)).foldl
            jmin .posInf := comp.1
      have cy : (bboxFold (objs.filter isGvcbDesign)).minY =
          ((objs.filter isGvcbDesign).map (fun o => o.rect.top)).foldl
            jmin .posInf := comp.2.1
      have cX : (bboxFold (objs.filter isGvcbDesign)).maxX =
          ((objs.filter isGvcbDesign).map
            (fun o => jadd o.rect.left o.rect.width)).foldl
            jmax .negInf := comp.2.2.1
      have cY : (bboxFold (objs.filter isGvcbDesign)).maxY =
          ((objs.filter isGvcbDesign).map
            (fun o => jadd o.rect.top o.rect.height)).foldl
            jmax .negInf := comp.2.2.2
      have hfx' : (((objs.filter isGvcbDesign).map
          (fun o => o.rect.left)).foldl jmin .posInf).isFinite = true := by
        rw [← cx]; exact hfx
      have hfy' : (((objs.filter isGvcbDesign).map
          (fun o => o.rect.top)).foldl jmin .posInf).isFinite = true := by
        rw [← cy]; exact hfy
      have hgx' : (((objs.filter isGvcbDesign).map
          (fun o => jadd o.rect.left o.rect.width)).foldl
            jmax .negInf).isFinite = true := by
        rw [← cX]; exact hgx
      have hgy' : (((objs.filter isGvcbDesign).map
          (fun o => jadd o.rect.top o.rect.height)).foldl
            jmax .negInf).isFinite = true := by
        rw [← cY]; exact hgy
      have ex : JVal.fin ((bboxFold (objs.filter isGvcbDesign)).minX.toQ) =
          ((objs.filter isGvcbDesign).map (fun o => o.rect.left)).foldl
            jmin .posInf := by
        rw [cx]; exact (JVal.eq_fin_toQ _ hfx').symm
      have ey : JVal.fin ((bboxFold (objs.filter isGvcbDesign)).minY.toQ) =
          ((objs.filter isGvcbDesign).map (fun o => o.rect.top)).foldl
            jmin .posInf := by
        rw [cy]; exact (JVal.eq_fin_toQ _ hfy').symm
      have eX : JVal.fin ((bboxFold (objs.filter isGvcbDesign)).maxX.toQ) =
          ((objs.filter isGvcbDesign).map
            (fun o => jadd o.rect.left o.rect.width)).foldl jmax .negInf := by
        rw [cX]; exact (JVal.eq_fin_toQ _ hgx').symm
      have eY : JVal.fin ((bboxFold (objs.filter isGvcbDesign)).maxY.toQ) =
          ((objs.filter isGvcbDesign).map
            (fun o => jadd o.rect.top o.rect.height)).foldl jmax .negInf := by
        rw [cY]; exact (JVal.eq_fin_toQ _ hgy').symm
      have hsumX : (bboxFold (objs.filter isGvcbDesign)).minX.toQ +
          ((bboxFold (objs.filter isGvcbDesign)).maxX.toQ -
           (bboxFold (objs.filter isGvcbDesign)).minX.toQ) =
          (bboxFold (objs.filter isGvcbDesign)).maxX.toQ := by ring
      have hsumY : (bboxFold (objs.filter isGvcbDesign)).minY.toQ +
          ((bboxFold (objs.filter isGvcbDesign)).maxY.toQ -
           (bboxFold (objs.filter isGvcbDesign)).minY.toQ) =
          (bboxFold (objs.filter isGvcbDesign)).maxY.toQ := by ring
      refine ⟨⟨?_, ?_⟩, ⟨?_, ?_⟩, ⟨?_, ?_⟩, ⟨?_, ?_⟩⟩
      · show JVal.fin ((bboxFold (objs.filter isGvcbDesign)).minX.toQ) ∈ _
        rw [ex]
        rcases foldl_jmin_acc
          ((objs.filter isGvcbDesign).map (fun o => o.rect.left))
          .posInf with hm | hm
        · rw [hm] at hfx'; simp [JVal.isFinite] at hfx'
        · exact hm
      · intro o ho
        show jle (JVal.fin ((bboxFold (objs.filter isGvcbDesign)).minX.toQ))
          o.rect.left = true
        rw [ex]
        exact (foldl_jmin_le _ _ hfx').2 o.rect.left
          (List.mem_map_of_mem _ ho)
      · show JVal.fin ((bboxFold (objs.filter isGvcbDesign)).minY.toQ) ∈ _
        rw [ey]
        rcases foldl_jmin_acc
          ((objs.filter isGvcbDesign).map (fun o => o.rect.top))
          .posInf with hm | hm
        · rw [hm] at hfy'; simp [JVal.isFinite] at hfy'
        · exact hm
      · intro o ho
        show jle (JVal.fin ((bboxFold (objs.filter isGvcbDesign)).minY.toQ))
          o.rect.top = true
        rw [ey]
        exact (foldl_jmin_le _ _ hfy').2 o.rect.top
          (List.mem_map_of_mem _ ho)
      · show JVal.fin ((bboxFold (objs.filter isGvcbDesign)).minX.toQ +
            ((bboxFold (objs.filter isGvcbDesign)).maxX.toQ -
             (bboxFold (objs.filter isGvcbDesign)).minX.toQ)) ∈ _
        rw [hsumX, eX]
        rcases foldl_jmax_acc
          ((objs.filter isGvcbDesign).map
            (fun o => jadd o.rect.left o.rect.width))
          .negInf with hm | hm
        · rw [hm] at hgx'; simp [JVal.isFinite] at hgx'
        · exact hm
      · intro o ho
        show jle (jadd o.rect.left o.rect.width)
          (JVal.fin ((bboxFold (objs.filter isGvcbDesign)).minX.toQ +
            ((bboxFold (objs.filter isGvcbDesign)).maxX.toQ -
             (bboxFold (objs.filter isGvcbDesign)).minX.toQ))) = true
        rw [hsumX, eX]
        exact (foldl_jmax_ge _ _ hgx').2 (jadd o.rect.left o.rect.width)
          (List.mem_map_of_mem _ ho)
      · show JVal.fin ((bboxFold (objs.filter isGvcbDesign)).minY.toQ +
            ((bboxFold (objs.filter isGvcbDesign)).maxY.toQ -
             (bboxFold (objs.filter isGvcbDesign)).minY.toQ)) ∈ _
        rw [hsumY, eY]
        rcases foldl_jmax_acc
          ((objs.filter isGvcbDesign).map
            (fun o => jadd o.rect.top o.rect.height))
          .negInf with hm | hm
        · rw [hm] at hgy'; simp [JVal.isFinite] at hgy'
        · exact hm
      · intro o ho
        show jle (jadd o.rect.top o.rect.height)
          (JVal.fin ((bboxFold (objs.filter isGvcbDesign)).minY.toQ +
            ((bboxFold (objs.filter isGvcbDesign)).maxY.toQ -
             (bboxFold (objs.filter isGvcbDesign)).minY.toQ))) = true
        rw [hsumY, eY]
        exact (foldl_jmax_ge _ _ hgy').2 (jadd o.rect.top o.rect.height)
          (List.mem_map_of_mem _ ho)

/-- C3 witness: a concrete two-object scene, evaluated. -/
theorem c3_witness :
    getVisibleContentBounds [sampleBackObj, sampleNameObj] =
      some ⟨10, 5, 100, 215⟩ ∧
    JVal.fin (10 : ℚ) ∈
      ([sampleBackObj, sampleNameObj].filter isGvcbDesign).map
        (fun o => o.rect.left) :=
  ⟨by norm_num [getVisibleContentBounds, isGvcbDesign, bboxFold, bboxStep,
     jmin, jmax, jadd, JVal.isFinite, JVal.toQ, sampleBackObj, sampleNameObj,
     finRect, nameFalsy],
   ((c3_bounds_resolver_exact [sampleBackObj, sampleNameObj]).2
     ⟨10, 5, 100, 215⟩
     (by norm_num [getVisibleContentBounds, isGvcbDesign, bboxFold, bboxStep,
       jmin, jmax, jadd, JVal.isFinite, JVal.toQ, sampleBackObj,
       sampleNameObj, finRect, nameFalsy])).1.1⟩

/-! ## C2: the auto-center condition -/

/-- C2 counterexample: with a saved name placement and no saved number
placement, the auto-center pass is still scheduled (shouldAutoCenter is
the disjunction of the two missing checks, not the conjunction), so a
partially customized template does trigger auto-centering. -/
theorem c2_counterexample :
    (some sampleTextStyle).isSome = true ∧
    (loadBackTextObjects (some sampleTextStyle) none none none
      samplePlayer 960).autoCenterScheduled = true :=
  ⟨rfl, rfl⟩

/-- C2 amended: the auto-center pass is skipped exactly when both the
name and the number have a previously saved placement (template value or
surviving scene object); when at least one is missing the pass is
scheduled; the created objects always take the saved placement when
present and the built-in defaults otherwise. -/
theorem c2_auto_center_condition
    (slotName slotNumber existingName existingNumber : Option TextStyleT)
    (p : Player) (canvasW : ℚ) :
    ((loadBackTextObjects slotName slotNumber existingName existingNumber
        p canvasW).autoCenterScheduled = false ↔
      (slotName.orElse fun _ => existingName).isSome = true ∧
      (slotNumber.orElse fun _ => existingNumber).isSome = true) ∧
    (loadBackTextObjects slotName slotNumber existingName existingNumber
        p canvasW).nameProps =
      (slotName.orElse fun _ => existingName).getD
        (defaultNameProps p canvasW) ∧
    (loadBackTextObjects slotName slotNumber existingName existingNumber
        p canvasW).numberProps =
      (slotNumber.orElse fun _ => existingNumber).getD
        (defaultNumberProps p canvasW) := by
  refine ⟨?_, rfl, rfl⟩
  cases slotName <;> cases slotNumber <;> cases existingName <;>
    cases existingNumber <;> simp [loadBackTextObjects]

/-- C2 amended witness: a template with both placements saved schedules
no auto-center pass. -/
theorem c2_witness :
    (loadBackTextObjects (some sampleTextStyle) (some sampleTextStyle)
      none none samplePlayer 960).autoCenterScheduled = false :=
  (c2_auto_center_condition (some sampleTextStyle) (some sampleTextStyle)
    none none samplePlayer 960).1.mpr ⟨rfl, rfl⟩

/-! ## C6: template store round trip -/

theorem decode_encode_textStyle (t : TextStyleT) :
    decodeTextStyle (encodeTextStyle t) = some t := by
  obtain ⟨text, left, top, fontSize, fontFamily, fill, stroke, strokeWidth,
    angle, textAlign, width, height⟩ := t
  cases width <;> cases height <;> rfl

theorem decode_encode_logo (g : LogoPlacementT) :
    decodeLogo (encodeLogo g) = some g := by
  obtain ⟨src, left, top, scaleX, scaleY, angle⟩ := g
  rfl

theorem decodeListWith_encode_textStyle (l : List TextStyleT) :
    decodeListWith decodeTextStyle (l.map encodeTextStyle) = some l := by
  induction l with
  | nil => rfl
  | cons t l ih => simp [decodeListWith, decode_encode_textStyle, ih]

theorem decodeListWith_encode_logo (l : List LogoPlacementT) :
    decodeListWith decodeLogo (l.map encodeLogo) = some l := by
  induction l with
  | nil => rfl
  | cons g l ih => simp [decodeListWith, decode_encode_logo, ih]

theorem decode_encode_slot (s : TemplateSlotT) :
    decodeSlot (encodeSlot s) = some s := by
  obtain ⟨n, num, cts, cls⟩ := s
  cases n <;> cases num <;> cases cts <;> cases cls <;>
    simp [encodeSlot, decodeSlot, jlookup, decode_encode_textStyle,
      decodeListWith_encode_textStyle, decodeListWith_encode_logo]

/-- C6: saving the template and loading it back with no concurrent
writer returns the same template, slot for slot (the stored record is
keyed by view key; the extra lastModified key is not a view slot and is
ignored by every per-view read). The JSON tree written by stringify is
the tree parse returns, so storage is modelled as holding the tree. -/
theorem c6_save_load_roundtrip (m : TemplateMapT) (lastModified : ℚ)
    (storage : Option Json) (cur : TemplateMapT) :
    loadGlobalTemplate (saveGlobalTemplate m lastModified storage) cur = m := by
  obtain ⟨f, b, l, r, c⟩ := m
  simp [saveGlobalTemplate, loadGlobalTemplate, encodeTemplate,
    decodeTemplateSlot, jlookup, decode_encode_slot]

/-! ## C7: size scale factor -/

/-- C7 counterexample: the interpolation is not clamped; the numeric
garment size 60 yields 43/30, which exceeds 1.2, so the result does not
always lie in the interval from 0.8 to 1.2. -/
theorem c7_counterexample :
    getSizeScaleFactor (some "60") = 43/30 ∧
    ¬ getSizeScaleFactor (some "60") ≤ 6/5 := by
  have h : parseIntJS "60" = some 60 := rfl
  have key : getSizeScaleFactor (some "60") =
      ((60 : ℚ) - 22) / (46 - 22) * (6/5 - 4/5) + 4/5 := by
    simp [getSizeScaleFactor, h]
  rw [key]
  norm_num

/-- C7 amended: getSizeScaleFactor computes the unclamped linear
interpolation sending size 22 to 0.8 and size 46 to 1.2; its value lies
in the interval from 0.8 to 1.2 exactly when the parsed size lies
between 22 and 46; a missing or non-numeric size yields exactly 1. -/
theorem c7_size_scale_unclamped (s : String) (n : ℤ)
    (hs : s ≠ "") (hn : parseIntJS s = some n) :
    getSizeScaleFactor (some s) =
      ((n : ℚ) - 22) / (46 - 22) * (6/5 - 4/5) + 4/5 ∧
    ((4/5 ≤ getSizeScaleFactor (some s) ∧
      getSizeScaleFactor (some s) ≤ 6/5) ↔ (22 ≤ n ∧ n ≤ 46)) ∧
    getSizeScaleFactor none = 1 ∧
    (∀ s2, parseIntJS s2 = none → getSizeScaleFactor (some s2) = 1) ∧
    getSizeScaleFactor (some "22") = 4/5 ∧
    getSizeScaleFactor (some "46") = 6/5 := by
  have key : getSizeScaleFactor (some s) =
      ((n : ℚ) - 22) / (46 - 22) * (6/5 - 4/5) + 4/5 := by
    simp [getSizeScaleFactor, hs, hn]
  refine ⟨key, ?_, rfl, ?_, ?_, ?_⟩
  · rw [key]
    constructor
    · rintro ⟨h1, h2⟩
      constructor
      · have : (22 : ℚ) ≤ (n : ℚ) := by linarith
        exact_mod_cast this
      · have : (n : ℚ) ≤ 46 := by linarith
        exact_mod_cast this
    · rintro ⟨h1, h2⟩
      have h1' : (22 : ℚ) ≤ (n : ℚ) := by exact_mod_cast h1
      have h2' : (n : ℚ) ≤ 46 := by exact_mod_cast h2
      constructor <;> linarith
  · intro s2 h
    by_cases h2 : s2 = "" <;> simp [getSizeScaleFactor, h, h2]
  · have h22 : parseIntJS "22" = some 22 := rfl
    have : getSizeScaleFactor (some "22") =
        ((22 : ℚ) - 22) / (46 - 22) * (6/5 - 4/5) + 4/5 := by
      simp [getSizeScaleFactor, h22]
    rw [this]; norm_num
  · have h46 : parseIntJS "46" = some 46 := rfl
    have : getSizeScaleFactor (some "46") =
        ((46 : ℚ) - 22) / (46 - 22) * (6/5 - 4/5) + 4/5 := by
      simp [getSizeScaleFactor, h46]
    rw [this]; norm_num

/-- C7 witness: the theorem applied at the numeric size 30. -/
theorem c7_witness :
    getSizeScaleFactor (some "30") =
      ((30 : ℚ) - 22) / (46 - 22) * (6/5 - 4/5) + 4/5 :=
  (c7_size_scale_unclamped "30" 30 (by decide) rfl).1

/-! ## C8: auto-layout idempotence -/

/-- C8: repeated invocation of centerFitBackNameNumber on an unchanged
back-artwork bounding rectangle (and unchanged text metrics) produces
exactly the same name and number positions and font sizes and causes no
further change: the routine recomputes every field it writes from the
rectangle alone. -/
theorem c8_centerFit_idempotent (backRect : Option RectQ)
    (nameWidthAt : ℤ → ℚ) (s : BackLayout) :
    centerFitBackNameNumber backRect nameWidthAt
      (centerFitBackNameNumber backRect nameWidthAt s) =
    centerFitBackNameNumber backRect nameWidthAt s := by
  cases backRect with
  | none => rfl
  | some r =>
    obtain ⟨n, num⟩ := s
    cases n <;> cases num <;> simp [centerFitBackNameNumber]

/-! ## C9: export file names -/

/-- C9 counterexample: the sleeve-component export names its file from
the sleeve type alone; for the player John Doe number 9 size 42 the file
is leftSleeve.png, which contains no digit at all, hence neither the
jersey number nor the size, and the single-view name from
generateFileName carries no view or component suffix. -/
theorem c9_counterexample :
    (exportIndividualSleeve true true true 5 [sampleSleeveObj]
      "leftSleeve").files = ["leftSleeve.png"] ∧
    generateFileName samplePlayer "png" = "John_Doe_9_42.png" ∧
    (∀ c ∈ "leftSleeve.png".toList, c.isDigit = false) := by
  refine ⟨rfl, rfl, by decide⟩

/-- C9 amended: the single-view and bulk-item exports name files from
the sanitized player name, number and size with no view suffix; the
export-all-views flow names files from the raw player name, number and
view with no size; sleeve and collar exports name files from the
component alone; the bulk archive name is jersey_designs_ followed by
the current date; sanitization replaces every non-alphanumeric character
with an underscore and preserves length. -/
theorem c9_file_names (p : Player) (format view sleeveType date : String) :
    generateFileName p format =
      sanitizeName p.playerName ++ "_" ++ p.jerseyNumber ++ "_" ++
        p.size ++ "." ++ format ∧
    (∀ c ∈ (sanitizeName p.playerName).toList,
      c.isAlphanum = true ∨ c = '_') ∧
    (sanitizeName p.playerName).length = p.playerName.length ∧
    exportAllViewsFileName p view =
      p.playerName ++ "_" ++ p.jerseyNumber ++ "_" ++ view ++ ".png" ∧
    sleeveExportFileName sleeveType = sleeveType ++ ".png" ∧
    collarExportFileName = "collar.png" ∧
    bulkArchiveName date = "jersey_designs_" ++ date ++ ".zip" := by
  refine ⟨rfl, ?_, ?_, rfl, rfl, rfl, rfl⟩
  · intro c hc
    have hl : (sanitizeName p.playerName).toList =
        p.playerName.toList.map
          (fun c => if c.isAlphanum then c else '_') := rfl
    rw [hl] at hc
    obtain ⟨a, ha, rfl⟩ := List.mem_map.mp hc
    by_cases h : a.isAlphanum <;> simp [h]
  · have hl : (sanitizeName p.playerName).length =
        (p.playerName.toList.map
          (fun c => if c.isAlphanum then c else '_')).length := rfl
    rw [hl, List.length_map]
    rfl

/-- C9 amended witness: the theorem applied at the sample player. -/
theorem c9_witness :
    generateFileName samplePlayer "png" =
      sanitizeName samplePlayer.playerName ++ "_" ++
        samplePlayer.jerseyNumber ++ "_" ++ samplePlayer.size ++ "." ++
        "png" :=
  (c9_file_names samplePlayer "png" "back" "leftSleeve" "2026-10-11").1

/-! ## C10: adding a custom logo -/

/-- C10: a logo added through the customization tools sits at the canvas
center with center origin and is tagged customLogo; a natural width over
300 is scaled so the rendered width is exactly 300 on both axes, while a
natural width of at most 300 keeps the natural scale 1. -/
theorem c10_add_logo_centered_scaled (canvasW canvasH imgW : ℚ)
    (logoUrl : String) :
    (handleAddLogo canvasW canvasH imgW logoUrl).left = canvasW / 2 ∧
    (handleAddLogo canvasW canvasH imgW logoUrl).top = canvasH / 2 ∧
    (handleAddLogo canvasW canvasH imgW logoUrl).originX = "center" ∧
    (handleAddLogo canvasW canvasH imgW logoUrl).originY = "center" ∧
    (handleAddLogo canvasW canvasH imgW logoUrl).name = some "customLogo" ∧
    (300 < imgW →
      (handleAddLogo canvasW canvasH imgW logoUrl).scaleX * imgW = 300 ∧
      (handleAddLogo canvasW canvasH imgW logoUrl).scaleY * imgW = 300) ∧
    (imgW ≤ 300 →
      (handleAddLogo canvasW canvasH imgW logoUrl).scaleX = 1 ∧
      (handleAddLogo canvasW canvasH imgW logoUrl).scaleY = 1) := by
  refine ⟨rfl, rfl, rfl, rfl, rfl, ?_, ?_⟩
  · intro h
    have hpos : (0 : ℚ) < imgW := lt_trans (by norm_num) h
    have hne : imgW ≠ 0 := hpos.ne'
    have hcond : imgW ≠ 0 ∧ 300 < imgW := ⟨hne, h⟩
    simp only [handleAddLogo, if_pos hcond]
    constructor <;> exact div_mul_cancel₀ 300 hne
  · intro h
    have hcond : ¬ (imgW ≠ 0 ∧ 300 < imgW) := by
      rintro ⟨_, h2⟩; linarith
    simp [handleAddLogo, if_neg hcond]

/-- C10 witness: the theorem applied to a wide and a narrow logo. -/
theorem c10_witness :
    (handleAddLogo 960 720 400 "logo.png").scaleX * 400 = 300 ∧
    (handleAddLogo 960 720 120 "logo.png").scaleX = 1 :=
  ⟨((c10_add_logo_centered_scaled 960 720 400 "logo.png").2.2.2.2.2.1
      (by norm_num)).1,
   ((c10_add_logo_centered_scaled 960 720 120 "logo.png").2.2.2.2.2.2
      (by norm_num)).1⟩

/-! ## C1: superseded loads and the token checks -/

/-- C1: evaluation of the load-token model at the failing schedule. A
front-view load with token 1, one stored custom logo and a successful
artwork fetch is superseded during the logo fetch (observed token 2):
it still adds the custom logo and the player label to the scene after
that suspension point, because neither addition re-checks the token; the
final render is the only later step suppressed. By contrast a back-view
load superseded at the artwork fetch (observed token 2) performs no
mutation beyond the initial synchronous clear. -/
theorem c1_superseded_load_still_mutates :
    runLoadJerseyView .front true true true none none 0 [(true, 2)] 1 1 0 =
      [.clearScene, .addArtwork .front, .addCustomLogo 0,
       .addPlayerLabel] ∧
    runLoadJerseyView .back true true true none none 0 [] 1 2 2 =
      [.clearScene] := by
  constructor <;> rfl

/-! ## C5: balance checks across the export operations -/

/-- C5: evaluation at the failing input. With a signed-in user whose
balance is zero, the sleeve and collar component exports still produce
their file and still call deductPoints once: these two operations
perform no insufficient-balance check at all (the balance in scope is
never read), contradicting the claim that every export operation aborts
on a low balance before rendering with no file and no deduction. -/
theorem c5_component_exports_skip_balance_check :
    (exportIndividualSleeve true true true 0 [sampleSleeveObj]
      "leftSleeve").files = ["leftSleeve.png"] ∧
    (exportIndividualSleeve true true true 0 [sampleSleeveObj]
      "leftSleeve").deductCalls = 1 ∧
    (exportCollar true true true 0 [sampleCollarObj]).files =
      ["collar.png"] ∧
    (exportCollar true true true 0 [sampleCollarObj]).deductCalls = 1 := by
  refine ⟨rfl, rfl, rfl, rfl⟩

/-! ## C4: export filter versus the bounds resolver -/

theorem jadd_fin (a b : JVal) (ha : a.isFinite = true)
    (hb : b.isFinite = true) : (jadd a b).isFinite = true := by
  cases a <;> cases b <;> simp_all [jadd, JVal.isFinite]

/-- C4 counterexample: a scene holding a single visible leftSleeve
object. The bounds resolver returns its exact box, but the single-view
export filter excludes the leftSleeve tag, so exportCurrentDesign fails
with the nothing-to-export condition and produces no file, although
getVisibleContentBounds is not null: the export filter is not the
bounds-resolver filter. -/
theorem c4_counterexample :
    getVisibleContentBounds [sampleSleeveObj] = some ⟨0, 0, 10, 10⟩ ∧
    [sampleSleeveObj].filter isExportDesign = [] ∧
    (exportCurrentDesign true true true 5 false 0 [sampleSleeveObj]
      samplePlayer true).files = [] ∧
    (exportCurrentDesign true true true 5 false 0 [sampleSleeveObj]
      samplePlayer true).err = some .noContent := by
  refine ⟨?_, rfl, rfl, rfl⟩
  norm_num [getVisibleContentBounds, isGvcbDesign, bboxFold, bboxStep,
    jmin, jmax, jadd, JVal.isFinite, JVal.toQ, sampleSleeveObj, finRect,
    nameFalsy]

/-- C4 amended: exportCurrentDesign selects by the bounds-resolver rule
restricted to the six shared tags (no leftSleeve, rightSleeve or collar,
and untagged objects need a truthy src instead of being an image) and
crops by the same min/max reduction with no finiteness guard. On scenes
whose visible objects all carry one of the six shared tags and whose
rectangles are finite, its filter equals the bounds-resolver filter, it
fails with nothing-to-export and no file exactly when
getVisibleContentBounds is null, and otherwise its crop rectangle equals
the resolver bounds. -/
theorem c4_export_filter_and_crop (objs : List SceneObj) (player : Player)
    (h1 : ∀ o ∈ objs, o.visible = true →
      o.name = some "jerseyFront" ∨ o.name = some "jerseyBack" ∨
      o.name = some "playerName" ∨ o.name = some "jerseyNumber" ∨
      o.name = some "customText" ∨ o.name = some "customLogo")
    (h2 : ∀ o ∈ objs, o.rect.allFinite = true) :
    objs.filter isExportDesign = objs.filter isGvcbDesign ∧
    ((exportCurrentDesign true true true 5 false 0 objs player true).files
        = [] ↔ getVisibleContentBounds objs = none) ∧
    (∀ b, getVisibleContentBounds objs = some b →
      (exportCurrentDesign true true true 5 false 0 objs player true).crop =
        some (.fin b.left, .fin b.top, .fin b.width, .fin b.height)) := by
  have hfe : objs.filter isExportDesign = objs.filter isGvcbDesign := by
    apply List.filter_congr
    intro o ho
    by_cases hv : o.visible = true
    · rcases h1 o ho hv with h | h | h | h | h | h <;>
        simp [isExportDesign, isGvcbDesign, h, hv]
    · have hv' : o.visible = false := by
        cases hvis : o.visible
        · rfl
        · exact absurd hvis hv
      simp [isExportDesign, isGvcbDesign, hv']
  have keyG : getVisibleContentBounds objs =
      (if (objs.filter isGvcbDesign).isEmpty then none
       else if ((bboxFold (objs.filter isGvcbDesign)).minX.isFinite &&
                (bboxFold (objs.filter isGvcbDesign)).minY.isFinite &&
                (bboxFold (objs.filter isGvcbDesign)).maxX.isFinite &&
                (bboxFold (objs.filter isGvcbDesign)).maxY.isFinite) then
         some ⟨(bboxFold (objs.filter isGvcbDesign)).minX.toQ,
               (bboxFold (objs.filter isGvcbDesign)).minY.toQ,
               (bboxFold (objs.filter isGvcbDesign)).maxX.toQ -
                 (bboxFold (objs.filter isGvcbDesign)).minX.toQ,
               (bboxFold (objs.filter isGvcbDesign)).maxY.toQ -
                 (bboxFold (objs.filter isGvcbDesign)).minY.toQ⟩
       else none) := rfl
  have keyE : exportCurrentDesign true true true 5 false 0 objs player true =
      (if (objs.filter isExportDesign).isEmpty then
        ⟨[], 0, none, some .noContent⟩
       else
        ⟨[generateFileName player "png"], 1,
         some ((bboxFold (objs.filter isExportDesign)).minX,
               (bboxFold (objs.filter isExportDesign)).minY,
               jsub (bboxFold (objs.filter isExportDesign)).maxX
                 (bboxFold (objs.filter isExportDesign)).minX,
               jsub (bboxFold (objs.filter isExportDesign)).maxY
                 (bboxFold (objs.filter isExportDesign)).minY), none⟩) := rfl
  have hDfin : ∀ o ∈ objs.filter isGvcbDesign, o.rect.allFinite = true :=
    fun o ho => h2 o (List.mem_of_mem_filter ho)
  have hchain : ¬(objs.filter isGvcbDesign).isEmpty = true →
      ((bboxFold (objs.filter isGvcbDesign)).minX.isFinite &&
       (bboxFold (objs.filter isGvcbDesign)).minY.isFinite &&
       (bboxFold (objs.filter isGvcbDesign)).maxX.isFinite &&
       (bboxFold (objs.filter isGvcbDesign)).maxY.isFinite) = true := by
    intro hne
    have hne' : objs.filter isGvcbDesign ≠ [] := fun h => hne (by simp [h])
    have hmapne : ∀ f : SceneObj → JVal,
        (objs.filter isGvcbDesign).map f ≠ [] := by
      intro f h
      exact hne' (List.map_eq_nil_iff.mp h)
    have comp := bboxFold_components (objs.filter isGvcbDesign)
      ⟨.posInf, .posInf, .negInf, .negInf⟩
    have hsplit : ∀ o ∈ objs.filter isGvcbDesign,
        o.rect.left.isFinite = true ∧ o.rect.top.isFinite = true ∧
        o.rect.width.isFinite = true ∧ o.rect.height.isFinite = true := by
      intro o ho
      have := hDfin o ho
      simp only [JRect.allFinite, Bool.and_eq_true] at this
      exact ⟨this.1.1.1, this.1.1.2, this.1.2, this.2⟩
    have hfx : (bboxFold (objs.filter isGvcbDesign)).minX.isFinite = true := by
      rw [show (bboxFold (objs.filter isGvcbDesign)).minX =
          ((objs.filter isGvcbDesign).map (fun o => o.rect.left)).foldl
            jmin .posInf from comp.1]
      apply foldl_jmin_posInf_fin _ (hmapne _)
      intro x hx
      obtain ⟨o, ho, rfl⟩ := List.mem_map.mp hx
      exact (hsplit o ho).1
    have hfy : (bboxFold (objs.filter isGvcbDesign)).minY.isFinite = true := by
      rw [show (bboxFold (objs.filter isGvcbDesign)).minY =
          ((objs.filter isGvcbDesign).map (fun o => o.rect.top)).foldl
            jmin .posInf from comp.2.1]
      apply foldl_jmin_posInf_fin _ (hmapne _)
      intro x hx
      obtain ⟨o, ho, rfl⟩ := List.mem_map.mp hx
      exact (hsplit o ho).2.1
    have hgx : (bboxFold (objs.filter isGvcbDesign)).maxX.isFinite = true := by
      rw [show (bboxFold (objs.filter isGvcbDesign)).maxX =
          ((objs.filter isGvcbDesign).map
            (fun o => jadd o.rect.left o.rect.width)).foldl
            jmax .negInf from comp.2.2.1]
      apply foldl_jmax_negInf_fin _ (hmapne _)
      intro x hx
      obtain ⟨o, ho, rfl⟩ := List.mem_map.mp hx
      exact jadd_fin _ _ (hsplit o ho).1 (hsplit o ho).2.2.1
    have hgy : (bboxFold (objs.filter isGvcbDesign)).maxY.isFinite = true := by
      rw [show (bboxFold (objs.filter isGvcbDesign)).maxY =
          ((objs.filter isGvcbDesign).map
            (fun o => jadd o.rect.top o.rect.height)).foldl
            jmax .negInf from comp.2.2.2]
      apply foldl_jmax_negInf_fin _ (hmapne _)
      intro x hx
      obtain ⟨o, ho, rfl⟩ := List.mem_map.mp hx
      exact jadd_fin _ _ (hsplit o ho).2.1 (hsplit o ho).2.2.2
    simp [hfx, hfy, hgx, hgy]
  refine ⟨hfe, ?_, ?_⟩
  · rw [keyE, hfe, keyG]
    by_cases hne : (objs.filter isGvcbDesign).isEmpty = true
    · simp [hne]
    · rw [if_neg hne, if_neg hne, if_pos (hchain hne)]
      simp
  · intro b hb
    rw [keyG] at hb
    by_cases hne : (objs.filter isGvcbDesign).isEmpty = true
    · rw [if_pos hne] at hb; cases hb
    · rw [if_neg hne, if_pos (hchain hne)] at hb
      injection hb with hb
      subst hb
      rw [keyE, hfe, if_neg hne]
      have h4 := hchain hne
      simp only [Bool.and_eq_true] at h4
      obtain ⟨⟨⟨hfx, hfy⟩, hgx⟩, hgy⟩ := h4
      rw [JVal.eq_fin_toQ _ hfx, JVal.eq_fin_toQ _ hfy,
        JVal.eq_fin_toQ _ hgx, JVal.eq_fin_toQ _ hgy]
      simp [jsub, JVal.toQ]

/-- C4 amended witness: the theorem applied to a one-object back-view
scene, hypotheses discharged by evaluation. -/
theorem c4_witness :
    [sampleBackObj].filter isExportDesign =
      [sampleBackObj].filter isGvcbDesign ∧
    ((exportCurrentDesign true true true 5 false 0 [sampleBackObj]
        samplePlayer true).files = [] ↔
      getVisibleContentBounds [sampleBackObj] = none) :=
  ⟨(c4_export_filter_and_crop [sampleBackObj] samplePlayer (by decide)
      (by decide)).1,
   (c4_export_filter_and_crop [sampleBackObj] samplePlayer (by decide)
      (by decide)).2.1⟩

end Jersey
